import Mathlib

/-!
A shallow embedding of the ft-wallet repository (a fault-tolerant wallet
service, Python).  The embedding covers:

* `WalletService` from src/services/wallet_service.py: in-memory balances,
  the transaction log (write-ahead log), idempotency cache, recovery;
* `PrimaryWalletService` from src/server/primary_server.py: the
  backup-first replicated write protocol;
* `FailoverManager` from src/services/failover_service.py: the periodic
  health probe toggling failover mode;
* the HTTP handlers from src/server/http_server.py.

Modelling choices: Python float amounts are embedded as rationals (`Rat`);
Python dicts become insertion-ordered association lists with unique keys;
every disk write (`save_wallets`, `save_transactions`) is recorded as an
explicit `DiskEvent` carrying the snapshot written, so durability ordering
and crash points are visible; values that are `None` in Python (the
`success`, `message`, `new_balance` fields of a PENDING record, and hence
also results replayed from such records) are embedded as `Option`.
-/

namespace FTWallet

/-- Python dict with string keys: insertion-ordered association list. -/
abbrev Dict (α : Type) := List (String × α)

/-- Dict lookup: value of the first (unique) entry with key `k`. -/
def dictGet {α : Type} : Dict α → String → Option α
  | [], _ => none
  | p :: rest, k => if p.1 = k then some p.2 else dictGet rest k

/-- Dict update: replace the entry with key `k` in place, or append it. -/
def dictSet {α : Type} : Dict α → String → α → Dict α
  | [], k, v => [(k, v)]
  | p :: rest, k, v => if p.1 = k then (k, v) :: rest else p :: dictSet rest k v

/-- Status field of a transaction record. -/
inductive TxnStatus where
  | PENDING
  | COMMITTED
  | ROLLED_BACK
deriving DecidableEq, Repr

/-- One record of the transaction log.  The Python record is a dict; the
fallback branch of `_commit_transaction` creates records without the
`operation`, `account_id`, `amount` keys, and the WAL writes `None` into
`success`, `message`, `new_balance`, so those six fields are `Option`. -/
structure TxnRecord where
  status : TxnStatus
  operation : Option String
  account_id : Option String
  amount : Option Rat
  success : Option Bool
  message : Option String
  new_balance : Option Rat
deriving DecidableEq, Repr

/-- In-memory state of `WalletService`: `self.wallets` and
`self.transactions`. -/
structure WalletService where
  wallets : Dict Rat
  transactions : Dict TxnRecord
deriving DecidableEq, Repr

/-- A disk write performed by the engine, carrying the snapshot written:
`save_wallets` rewrites the wallet file, `save_transactions` rewrites the
transaction log file (atomic replace). -/
inductive DiskEvent where
  | saveWallets (w : Dict Rat)
  | saveTransactions (t : Dict TxnRecord)
deriving DecidableEq, Repr

/-- The `(success, message, new_balance)` triple returned by the engine.
Components are `Option` because a replay of a PENDING or ROLLED_BACK
record returns the stored `None` fields. -/
structure TriResult where
  success : Option Bool
  message : Option String
  new_balance : Option Rat
deriving DecidableEq, Repr

/-- The record written by `_record_transaction_wal`: status PENDING,
result fields `None`. -/
def walRecord (operation account_id : String) (amount : Rat) : TxnRecord :=
  ⟨.PENDING, some operation, some account_id, some amount, none, none, none⟩

/-- Method `_record_transaction_wal`: write a PENDING record for the transaction
and persist the log. -/
def recordTransactionWal (s : WalletService) (transaction_id operation account_id : String)
    (amount : Rat) : WalletService × List DiskEvent :=
  let t := dictSet s.transactions transaction_id (walRecord operation account_id amount)
  ({ s with transactions := t }, [DiskEvent.saveTransactions t])

/-- The record stored by `_commit_transaction`: updates the existing
record in place, or (fallback) creates one without operation fields. -/
def commitRecord (s : WalletService) (transaction_id : String) (suc : Bool) (msg : String)
    (nb : Rat) : TxnRecord :=
  match dictGet s.transactions transaction_id with
  | some r =>
    { r with
      status := .COMMITTED
      success := some suc
      message := some msg
      new_balance := some nb }
  | none => ⟨.COMMITTED, none, none, none, some suc, some msg, some nb⟩

/-- Method `_commit_transaction`: mark the record COMMITTED with the result and
persist the log. -/
def commitTransaction (s : WalletService) (transaction_id : String) (suc : Bool) (msg : String)
    (nb : Rat) : WalletService × List DiskEvent :=
  let t := dictSet s.transactions transaction_id (commitRecord s transaction_id suc msg nb)
  ({ s with transactions := t }, [DiskEvent.saveTransactions t])

/-- Method `_rollback_transaction`: if the record exists, set its status to
ROLLED_BACK (all other fields kept) and persist the log. -/
def rollbackTransaction (s : WalletService) (transaction_id : String) :
    WalletService × List DiskEvent :=
  match dictGet s.transactions transaction_id with
  | some r =>
    let t := dictSet s.transactions transaction_id { r with status := .ROLLED_BACK }
    ({ s with transactions := t }, [DiskEvent.saveTransactions t])
  | none => (s, [])

/-- Method `_get_cached_result` applied to a record found in the log: return its
stored `success`, `message`, `new_balance` fields. -/
def cachedResult (r : TxnRecord) : TriResult :=
  ⟨r.success, r.message, r.new_balance⟩

/-- The idiom `if account_id not in self.wallets: self.wallets[account_id] = 0.0`:
create the account at zero if absent. -/
def ensureAccount (w : Dict Rat) (account_id : String) : Dict Rat :=
  if (dictGet w account_id).isSome then w else dictSet w account_id 0

/-- Method `WalletService.deposit`.  Returns the result triple, the new in-memory
state, and the list of disk writes, in order. -/
def deposit (s : WalletService) (account_id : String) (amount : Rat) (transaction_id : String) :
    TriResult × WalletService × List DiskEvent :=
  match dictGet s.transactions transaction_id with
  | some r => (cachedResult r, s, [])
  | none =>
    if amount ≤ 0 then
      let (s1, ev1) := commitTransaction s transaction_id false "Amount must be positive" 0
      (⟨some false, some "Amount must be positive", some 0⟩, s1, ev1)
    else
      let (s1, ev1) := recordTransactionWal s transaction_id "DEPOSIT" account_id amount
      let w1 := ensureAccount s1.wallets account_id
      let w2 := dictSet w1 account_id ((dictGet w1 account_id).getD 0 + amount)
      let s2 := { s1 with wallets := w2 }
      let nb := (dictGet w2 account_id).getD 0
      let msg := "Deposited " ++ toString amount
      let (s3, ev3) := commitTransaction s2 transaction_id true msg nb
      (⟨some true, some msg, some nb⟩, s3, ev1 ++ [DiskEvent.saveWallets w2] ++ ev3)

/-- Method `WalletService.withdraw`.  The insufficient-funds check runs before the
WAL write and commits the rejection directly. -/
def withdraw (s : WalletService) (account_id : String) (amount : Rat) (transaction_id : String) :
    TriResult × WalletService × List DiskEvent :=
  match dictGet s.transactions transaction_id with
  | some r => (cachedResult r, s, [])
  | none =>
    if amount ≤ 0 then
      let (s1, ev1) := commitTransaction s transaction_id false "Amount must be positive" 0
      (⟨some false, some "Amount must be positive", some 0⟩, s1, ev1)
    else
      let w1 := ensureAccount s.wallets account_id
      let bal := (dictGet w1 account_id).getD 0
      let sw := { s with wallets := w1 }
      if bal < amount then
        let (s1, ev1) := commitTransaction sw transaction_id false "Insufficient balance" bal
        (⟨some false, some "Insufficient balance", some bal⟩, s1, ev1)
      else
        let (s1, ev1) := recordTransactionWal sw transaction_id "WITHDRAW" account_id amount
        let w2 := dictSet s1.wallets account_id ((dictGet s1.wallets account_id).getD 0 - amount)
        let s2 := { s1 with wallets := w2 }
        let nb := (dictGet w2 account_id).getD 0
        let msg := "Withdrew " ++ toString amount
        let (s3, ev3) := commitTransaction s2 transaction_id true msg nb
        (⟨some true, some msg, some nb⟩, s3, ev1 ++ [DiskEvent.saveWallets w2] ++ ev3)

/-- Method `WalletService.get_balance`: read-only except that an unknown account
is created at zero and the wallet store saved. -/
def get_balance (s : WalletService) (account_id : String) :
    (Bool × Rat × String) × WalletService × List DiskEvent :=
  if (dictGet s.wallets account_id).isSome then
    ((true, (dictGet s.wallets account_id).getD 0, "Balance retrieved"), s, [])
  else
    let w := dictSet s.wallets account_id 0
    ((true, 0, "Balance retrieved"), { s with wallets := w }, [DiskEvent.saveWallets w])

/-- The loop of `recover_pending_transactions`: iterate over a snapshot of
the log items and roll back each record whose snapshot status is PENDING. -/
def recoverLoop : List (String × TxnRecord) → WalletService → Nat → List DiskEvent →
    Nat × WalletService × List DiskEvent
  | [], s, recovered, evs => (recovered, s, evs)
  | p :: rest, s, recovered, evs =>
    if p.2.status = .PENDING then
      let (s1, ev1) := rollbackTransaction s p.1
      recoverLoop rest s1 (recovered + 1) (evs ++ ev1)
    else
      recoverLoop rest s recovered evs

/-- Method `WalletService.recover_pending_transactions`: returns the count of
recovered (formerly PENDING) records. -/
def recover_pending_transactions (s : WalletService) :
    Nat × WalletService × List DiskEvent :=
  recoverLoop s.transactions s 0 []

/-- On-disk state of one replica: the wallet file and the transaction
log file. -/
structure Disk where
  wallets : Dict Rat
  transactions : Dict TxnRecord
deriving DecidableEq, Repr

/-- Apply one disk write to the on-disk state. -/
def applyEvent (d : Disk) : DiskEvent → Disk
  | .saveWallets w => { d with wallets := w }
  | .saveTransactions t => { d with transactions := t }

/-- Apply a sequence of disk writes (a trace prefix, for crash points). -/
def applyEvents (d : Disk) (evs : List DiskEvent) : Disk := evs.foldl applyEvent d

/-- Constructor `WalletService.__init__` on restart: load both files from disk. -/
def loadService (d : Disk) : WalletService := ⟨d.wallets, d.transactions⟩

/-- Outcome of the RPC to the backup replica as seen by the primary:
either a response triple, or a raised transport error (timeout,
unreachable) whose text is `message`. -/
inductive BackupOutcome where
  | ok (success : Bool) (message : String) (new_balance : Rat)
  | exn (message : String)
deriving DecidableEq, Repr

/-- Method `PrimaryWalletService.deposit`: if not in failover mode, call the
backup first; a backup failure aborts with a Backup error and no primary
mutation; a raised RPC error is caught and reported; otherwise (or in
failover mode) the local engine runs and its result is returned
verbatim. -/
def primary_deposit (failover_mode : Bool) (backup : BackupOutcome) (s : WalletService)
    (account_id : String) (amount : Rat) (transaction_id : String) :
    TriResult × WalletService × List DiskEvent :=
  if failover_mode then deposit s account_id amount transaction_id
  else
    match backup with
    | .exn m => (⟨some false, some ("Transaction failed: " ++ m), some 0⟩, s, [])
    | .ok bs bm _ =>
      if bs then deposit s account_id amount transaction_id
      else (⟨some false, some ("Backup error: " ++ bm), some 0⟩, s, [])

/-- Method `PrimaryWalletService.withdraw`: same protocol as `primary_deposit`. -/
def primary_withdraw (failover_mode : Bool) (backup : BackupOutcome) (s : WalletService)
    (account_id : String) (amount : Rat) (transaction_id : String) :
    TriResult × WalletService × List DiskEvent :=
  if failover_mode then withdraw s account_id amount transaction_id
  else
    match backup with
    | .exn m => (⟨some false, some ("Transaction failed: " ++ m), some 0⟩, s, [])
    | .ok bs bm _ =>
      if bs then withdraw s account_id amount transaction_id
      else (⟨some false, some ("Backup error: " ++ bm), some 0⟩, s, [])

/-- State of `FailoverManager`: the configured peer endpoint and the two
flags. -/
structure FailoverManager where
  backup_host : String
  backup_port : Nat
  is_primary_alive : Bool
  failover_mode : Bool
deriving DecidableEq, Repr

/-- Constructor `FailoverManager.__init__`: flags start alive and not in failover. -/
def initFailoverManager (backup_host : String) (backup_port : Nat) : FailoverManager :=
  ⟨backup_host, backup_port, true, false⟩

/-- The endpoint `check_primary_health` actually probes each tick: the
source opens a channel to the string `localhost` joined with the
`primary_grpc_port` argument, independent of the configured
`backup_host` and `backup_port`. -/
def health_probe_target (_fm : FailoverManager) (primary_grpc_port : Nat) : String × Nat :=
  ("localhost", primary_grpc_port)

/-- Default `primary_grpc_port` argument of `check_primary_health`. -/
def default_primary_grpc_port : Nat := 50051

/-- Default `timeout` argument (seconds) of `check_primary_health`. -/
def health_check_default_timeout : Nat := 5

/-- Seconds slept between probes in `check_primary_health`. -/
def health_check_period : Nat := 5

/-- One iteration of the `check_primary_health` loop, given whether the
probe connected within the deadline.  Returns the updated manager and
whether the critical failover log line was emitted this tick. -/
def check_health_step (fm : FailoverManager) (probe_ok : Bool) : FailoverManager × Bool :=
  if probe_ok then
    ({ fm with is_primary_alive := true, failover_mode := false }, false)
  else
    ({ fm with is_primary_alive := false, failover_mode := true }, !fm.failover_mode)

/-- The pydantic request model of POST /deposit and POST /withdraw in
src/server/http_server.py.  Its only fields are `account_id` and `amount`
(with a positivity constraint); there is no transaction identifier
field. -/
structure TransactionRequest where
  account_id : String
  amount : Rat
deriving DecidableEq, Repr

/-- An HTTP response: status code and body text (the success body or the
HTTPException detail). -/
structure HttpResponse where
  status : Nat
  detail : String
deriving DecidableEq, Repr

/-- Detail text of the TypeError raised when the handler calls the
three-parameter writer method with only two arguments. -/
def missingArgDetail (fn : String) : String :=
  fn ++ "() missing 1 required positional argument: " ++ "transaction" ++ "_id"

/-- The POST /deposit handler.  The source calls
`primary_service.deposit(request.account_id, request.amount)`, but
`PrimaryWalletService.deposit` has a third required parameter
(the transaction identifier), so in Python the call raises TypeError
before the writer body runs; the generic `except Exception` arm turns it
into HTTPException 500.  The handler therefore never invokes the writer:
the embedding takes the writer function as a parameter only to state that
the response does not depend on it. -/
def http_deposit (_writer : String → Rat → String → TriResult)
    (_req : TransactionRequest) : HttpResponse :=
  ⟨500, missingArgDetail "deposit"⟩

/-- The POST /withdraw handler: same two-argument call of the
three-parameter writer, hence the same TypeError path to 500. -/
def http_withdraw (_writer : String → Rat → String → TriResult)
    (_req : TransactionRequest) : HttpResponse :=
  ⟨500, missingArgDetail "withdraw"⟩

/-- One client operation against the engine. -/
inductive Op where
  | dep (account_id : String) (amount : Rat) (transaction_id : String)
  | wd (account_id : String) (amount : Rat) (transaction_id : String)
  | bal (account_id : String)
deriving DecidableEq, Repr

/-- State reached after one operation. -/
def applyOp (s : WalletService) : Op → WalletService
  | .dep a x t => (deposit s a x t).2.1
  | .wd a x t => (withdraw s a x t).2.1
  | .bal a => (get_balance s a).2.1

/-- State reached after a sequence of operations. -/
def runOps (s : WalletService) (ops : List Op) : WalletService := ops.foldl applyOp s

/-- Every stored balance is non-negative. -/
def NonNeg (s : WalletService) : Prop := ∀ p ∈ s.wallets, (0 : Rat) ≤ p.2

instance (s : WalletService) : Decidable (NonNeg s) := by
  unfold NonNeg; infer_instance

/-- A state with one PENDING and one COMMITTED record, for the C9
witness. -/
def recoverDemo : WalletService :=
  ⟨[("alice", 5)],
   [("t1", walRecord "DEPOSIT" "alice" 10),
    ("t2", ⟨TxnStatus.COMMITTED, none, none, none, some true, some "ok", some 5⟩)]⟩

/-- A log whose only record is rolled back, for the C10 witness. -/
def rbDemo : TxnRecord :=
  ⟨TxnStatus.ROLLED_BACK, some "DEPOSIT", some "alice", some 10, none, none, none⟩

/-- The service state holding `rbDemo`, for the C10 witness. -/
def rbService : WalletService := ⟨[], [("t7", rbDemo)]⟩

/-- Initial state for the C2 crash scenario: account alice at balance 0,
empty log. -/
def c2_service0 : WalletService := ⟨[("alice", 0)], []⟩

/-- Disk contents when the process crashes during
`deposit("alice", 10, "t5")` after the PENDING log write (the first disk
event) and before the wallet store save. -/
def c2_crashDisk : Disk :=
  applyEvents ⟨c2_service0.wallets, c2_service0.transactions⟩
    ((deposit c2_service0 "alice" 10 "t5").2.2.take 1)

/-- State after restart: load both files, then run recovery. -/
def c2_recovered : WalletService :=
  (recover_pending_transactions (loadService c2_crashDisk)).2.1

/- ### Dictionary lemmas -/

theorem dictGet_dictSet_self {α : Type} (d : Dict α) (k : String) (v : α) :
    dictGet (dictSet d k v) k = some v := by
  induction d with
  | nil => simp [dictGet, dictSet]
  | cons p rest ih =>
    by_cases h : p.1 = k
    · simp [dictGet, dictSet, h]
    · simp [dictGet, dictSet, h, ih]

theorem dictGet_dictSet_ne {α : Type} (d : Dict α) {k k' : String} (v : α) (h : k' ≠ k) :
    dictGet (dictSet d k v) k' = dictGet d k' := by
  have hk' : ¬ k = k' := fun hh => h hh.symm
  induction d with
  | nil => simp [dictGet, dictSet, hk']
  | cons p rest ih =>
    by_cases hp : p.1 = k
    · have hp' : ¬ p.1 = k' := by rw [hp]; exact hk'
      simp [dictGet, dictSet, hp, hp', hk']
    · by_cases hq : p.1 = k'
      · simp [dictGet, dictSet, hp, hq, h]
      · simp [dictGet, dictSet, hp, hq, ih]

theorem mem_of_dictGet {α : Type} {d : Dict α} {k : String} {v : α}
    (h : dictGet d k = some v) : (k, v) ∈ d := by
  induction d with
  | nil => simp [dictGet] at h
  | cons p rest ih =>
    by_cases hp : p.1 = k
    · simp only [dictGet, if_pos hp, Option.some.injEq] at h
      have hpv : p = (k, v) := by
        cases p
        simp only at hp h
        simp [hp, h]
      exact hpv ▸ List.mem_cons_self _ _
    · simp only [dictGet, if_neg hp] at h
      exact List.mem_cons_of_mem _ (ih h)

theorem dictGet_of_mem_nodup {α : Type} {d : Dict α} {k : String} {v : α}
    (hnd : (d.map Prod.fst).Nodup) (hm : (k, v) ∈ d) : dictGet d k = some v := by
  induction d with
  | nil => simp at hm
  | cons p rest ih =>
    simp only [List.map_cons, List.nodup_cons] at hnd
    rcases List.mem_cons.mp hm with h | h
    · subst h
      simp [dictGet]
    · have hk : p.1 ≠ k := by
        intro he
        exact hnd.1 (he ▸ (List.mem_map.mpr ⟨(k, v), h, rfl⟩))
      simp [dictGet, hk]
      exact ih hnd.2 h

theorem mem_dictSet_elim {α : Type} {d : Dict α} {k : String} {v : α} {p : String × α}
    (h : p ∈ dictSet d k v) : p = (k, v) ∨ p ∈ d := by
  induction d with
  | nil => simp [dictSet] at h; simp [h]
  | cons q rest ih =>
    by_cases hq : q.1 = k
    · simp [dictSet, hq] at h
      rcases h with h | h
      · left; simp [h]
      · right; simp [h]
    · simp [dictSet, hq] at h
      rcases h with h | h
      · right; simp [h]
      · rcases ih h with h2 | h2
        · left; exact h2
        · right; simp [h2]

theorem dictSet_keys_of_get {α : Type} {d : Dict α} {k : String} (v : α)
    (h : (dictGet d k).isSome) : (dictSet d k v).map Prod.fst = d.map Prod.fst := by
  induction d with
  | nil => simp [dictGet] at h
  | cons p rest ih =>
    by_cases hp : p.1 = k
    · simp [dictSet, hp]
    · simp [dictGet, hp] at h
      simp [dictSet, hp, ih h]

theorem dictGet_nonneg {d : Dict Rat} (hd : ∀ p ∈ d, (0 : Rat) ≤ p.2) (k : String) :
    (0 : Rat) ≤ (dictGet d k).getD 0 := by
  cases hg : dictGet d k with
  | none => simp
  | some v =>
    simpa using hd (k, v) (mem_of_dictGet hg)

/- ### Engine lemmas -/

theorem commit_wallets (s : WalletService) (tid : String) (b : Bool) (m : String) (nb : Rat) :
    (commitTransaction s tid b m nb).1.wallets = s.wallets := rfl

theorem cachedResult_commitRecord (s : WalletService) (tid : String) (b : Bool) (m : String)
    (nb : Rat) : cachedResult (commitRecord s tid b m nb) = ⟨some b, some m, some nb⟩ := by
  unfold cachedResult commitRecord
  cases dictGet s.transactions tid <;> rfl

theorem commitRecord_status (s : WalletService) (tid : String) (b : Bool) (m : String)
    (nb : Rat) : (commitRecord s tid b m nb).status = .COMMITTED := by
  unfold commitRecord
  cases dictGet s.transactions tid <;> rfl

theorem commit_get_self (s : WalletService) (tid : String) (b : Bool) (m : String) (nb : Rat) :
    dictGet (commitTransaction s tid b m nb).1.transactions tid =
      some (commitRecord s tid b m nb) := by
  simp [commitTransaction, dictGet_dictSet_self]

theorem commit_get_ne (s : WalletService) {t' tid : String} (b : Bool) (m : String) (nb : Rat)
    (h : t' ≠ tid) :
    dictGet (commitTransaction s tid b m nb).1.transactions t' = dictGet s.transactions t' := by
  simp [commitTransaction, dictGet_dictSet_ne _ _ h]

theorem wal_get_self (s : WalletService) (tid op a : String) (x : Rat) :
    dictGet (recordTransactionWal s tid op a x).1.transactions tid = some (walRecord op a x) := by
  simp [recordTransactionWal, dictGet_dictSet_self]

theorem wal_get_ne (s : WalletService) {t' tid : String} (op a : String) (x : Rat)
    (h : t' ≠ tid) :
    dictGet (recordTransactionWal s tid op a x).1.transactions t' = dictGet s.transactions t' := by
  simp [recordTransactionWal, dictGet_dictSet_ne _ _ h]

theorem deposit_dup {s : WalletService} {r : TxnRecord} (a : String) (x : Rat) {t : String}
    (h : dictGet s.transactions t = some r) :
    deposit s a x t = (cachedResult r, s, []) := by
  simp [deposit, h]

theorem withdraw_dup {s : WalletService} {r : TxnRecord} (a : String) (x : Rat) {t : String}
    (h : dictGet s.transactions t = some r) :
    withdraw s a x t = (cachedResult r, s, []) := by
  simp [withdraw, h]

/-- After any `deposit`, the transaction log holds a record for the
transaction whose stored fields replay the returned triple. -/
theorem deposit_caches (s : WalletService) (a : String) (x : Rat) (t : String) :
    ∃ r, dictGet (deposit s a x t).2.1.transactions t = some r ∧
      cachedResult r = (deposit s a x t).1 := by
  cases hg : dictGet s.transactions t with
  | some r =>
    refine ⟨r, ?_, ?_⟩ <;> simp [deposit, hg]
  | none =>
    by_cases hx : x ≤ 0
    · simp only [deposit, hg, if_pos hx, commitTransaction, dictGet_dictSet_self]
      exact ⟨_, rfl, cachedResult_commitRecord _ _ _ _ _⟩
    · simp only [deposit, hg, if_neg hx, recordTransactionWal, commitTransaction,
        dictGet_dictSet_self]
      exact ⟨_, rfl, cachedResult_commitRecord _ _ _ _ _⟩

/-- After any `withdraw`, the transaction log holds a record for the
transaction whose stored fields replay the returned triple. -/
theorem withdraw_caches (s : WalletService) (a : String) (x : Rat) (t : String) :
    ∃ r, dictGet (withdraw s a x t).2.1.transactions t = some r ∧
      cachedResult r = (withdraw s a x t).1 := by
  cases hg : dictGet s.transactions t with
  | some r =>
    refine ⟨r, ?_, ?_⟩ <;> simp [withdraw, hg]
  | none =>
    by_cases hx : x ≤ 0
    · simp only [withdraw, hg, if_pos hx, commitTransaction, dictGet_dictSet_self]
      exact ⟨_, rfl, cachedResult_commitRecord _ _ _ _ _⟩
    · by_cases hb : ((dictGet (ensureAccount s.wallets a) a).getD 0) < x
      · simp only [withdraw, hg, if_neg hx, if_pos hb, commitTransaction, dictGet_dictSet_self]
        exact ⟨_, rfl, cachedResult_commitRecord _ _ _ _ _⟩
      · simp only [withdraw, hg, if_neg hx, if_neg hb, recordTransactionWal, commitTransaction,
          dictGet_dictSet_self]
        exact ⟨_, rfl, cachedResult_commitRecord _ _ _ _ _⟩

/-- C1: once a `deposit(a, x, t)` call has completed, a repeated call with
the same arguments returns exactly the triple of the first call and makes
no change at all: the state is unchanged and no disk write happens (so the
balance effect is applied at most on the first call); likewise for
`withdraw`. -/
theorem deposit_withdraw_idempotent (s : WalletService) (a : String) (x : Rat) (t : String) :
    deposit (deposit s a x t).2.1 a x t = ((deposit s a x t).1, (deposit s a x t).2.1, [])
  ∧ withdraw (withdraw s a x t).2.1 a x t =
      ((withdraw s a x t).1, (withdraw s a x t).2.1, []) := by
  constructor
  · obtain ⟨r, hr, hc⟩ := deposit_caches s a x t
    rw [deposit_dup a x hr, hc]
  · obtain ⟨r, hr, hc⟩ := withdraw_caches s a x t
    rw [withdraw_dup a x hr, hc]

/-- C4: with failover mode off, when the backup replica answers
`success = false` with message `m`, the Replicated Writer returns
`(false, "Backup error: " ++ m, 0)` for both deposit and withdraw, and the
primary ledger is untouched: its state is returned unchanged and no disk
write occurs. -/
theorem backup_failure_aborts (s : WalletService) (a t m : String) (x b : Rat) :
    primary_deposit false (.ok false m b) s a x t =
      (⟨some false, some ("Backup error: " ++ m), some 0⟩, s, [])
  ∧ primary_withdraw false (.ok false m b) s a x t =
      (⟨some false, some ("Backup error: " ++ m), some 0⟩, s, []) :=
  ⟨rfl, rfl⟩

/-- C7 (the code diverges from the claim): the POST /deposit and
POST /withdraw handlers answer 500 for every request, because the source
calls the three-parameter writer with only two arguments (there is no
transaction identifier in the request model to pass), raising TypeError;
the response never depends on the writer, which is never invoked. -/
theorem http_mutations_always_500 (w w' : String → Rat → String → TriResult)
    (req : TransactionRequest) :
    (http_deposit w req).status = 500
  ∧ http_deposit w req = http_deposit w' req
  ∧ (http_withdraw w req).status = 500
  ∧ http_withdraw w req = http_withdraw w' req :=
  ⟨rfl, rfl, rfl, rfl⟩

/-- C8 counterexample: in the deployed configuration (peer endpoint
localhost:50052, default probe port), the endpoint the health loop probes
is not the peer endpoint the monitor was configured with — it probes port
50051, the primary's own RPC port. -/
theorem health_probe_misses_peer :
    health_probe_target (initFailoverManager "localhost" 50052) default_primary_grpc_port ≠
      ((initFailoverManager "localhost" 50052).backup_host,
        (initFailoverManager "localhost" 50052).backup_port) := by
  decide

/-- C8 as amended: every tick (period 5 s, probe deadline 5 s) the loop
probes localhost at the `primary_grpc_port` argument (default 50051),
regardless of the configured peer host and port; a failed probe sets
`failover_mode` to true, emitting the critical log line exactly when the
mode was not already failover; a successful probe sets it back to
false. -/
theorem check_health_spec (fm : FailoverManager) (p : Nat) :
    health_probe_target fm p = ("localhost", p)
  ∧ health_check_period = 5
  ∧ health_check_default_timeout = 5
  ∧ default_primary_grpc_port = 50051
  ∧ (check_health_step fm false).1.failover_mode = true
  ∧ (check_health_step fm false).1.is_primary_alive = false
  ∧ ((check_health_step fm false).2 = true ↔ fm.failover_mode = false)
  ∧ (check_health_step fm true).1.failover_mode = false
  ∧ (check_health_step fm true).1.is_primary_alive = true
  ∧ (check_health_step fm true).2 = false := by
  refine ⟨rfl, rfl, rfl, rfl, rfl, rfl, ?_, rfl, rfl, rfl⟩
  simp [check_health_step]

/- ### Non-negativity (C5) -/

theorem dictGet_ensure_getD (w : Dict Rat) (a : String) :
    (dictGet (ensureAccount w a) a).getD 0 = (dictGet w a).getD 0 := by
  unfold ensureAccount
  cases hw : dictGet w a with
  | none => simp [hw, dictGet_dictSet_self]
  | some v => simp [hw]

theorem nonneg_dictSet {d : Dict Rat} (hd : ∀ p ∈ d, (0 : Rat) ≤ p.2) {k : String} {v : Rat}
    (hv : (0 : Rat) ≤ v) : ∀ p ∈ dictSet d k v, (0 : Rat) ≤ p.2 := by
  intro p hp
  rcases mem_dictSet_elim hp with h | h
  · rw [h]
    exact hv
  · exact hd p h

theorem nonneg_ensure {d : Dict Rat} (hd : ∀ p ∈ d, (0 : Rat) ≤ p.2) (a : String) :
    ∀ p ∈ ensureAccount d a, (0 : Rat) ≤ p.2 := by
  unfold ensureAccount
  by_cases hw : (dictGet d a).isSome
  · simpa [hw] using hd
  · simpa [hw] using nonneg_dictSet hd le_rfl

/-- The wallet map written by a fresh successful deposit. -/
theorem deposit_wallets (s : WalletService) (a : String) (x : Rat) (t : String)
    (hg : dictGet s.transactions t = none) (hx : ¬ x ≤ 0) :
    (deposit s a x t).2.1.wallets =
      dictSet (ensureAccount s.wallets a) a
        ((dictGet (ensureAccount s.wallets a) a).getD 0 + x) := by
  simp only [deposit, hg, if_neg hx, recordTransactionWal, commitTransaction]

/-- A deposit with a non-positive amount leaves the wallet map alone. -/
theorem deposit_wallets_nonpos (s : WalletService) (a : String) (x : Rat) (t : String)
    (hg : dictGet s.transactions t = none) (hx : x ≤ 0) :
    (deposit s a x t).2.1.wallets = s.wallets := by
  simp only [deposit, hg, if_pos hx, commitTransaction]

theorem withdraw_wallets_nonpos (s : WalletService) (a : String) (x : Rat) (t : String)
    (hg : dictGet s.transactions t = none) (hx : x ≤ 0) :
    (withdraw s a x t).2.1.wallets = s.wallets := by
  simp only [withdraw, hg, if_pos hx, commitTransaction]

theorem withdraw_wallets_insufficient (s : WalletService) (a : String) (x : Rat) (t : String)
    (hg : dictGet s.transactions t = none) (hx : ¬ x ≤ 0)
    (hb : (dictGet (ensureAccount s.wallets a) a).getD 0 < x) :
    (withdraw s a x t).2.1.wallets = ensureAccount s.wallets a := by
  simp only [withdraw, hg, if_neg hx, if_pos hb, commitTransaction]

theorem withdraw_wallets_main (s : WalletService) (a : String) (x : Rat) (t : String)
    (hg : dictGet s.transactions t = none) (hx : ¬ x ≤ 0)
    (hb : ¬ (dictGet (ensureAccount s.wallets a) a).getD 0 < x) :
    (withdraw s a x t).2.1.wallets =
      dictSet (ensureAccount s.wallets a) a
        ((dictGet (ensureAccount s.wallets a) a).getD 0 - x) := by
  simp only [withdraw, hg, if_neg hx, if_neg hb, recordTransactionWal, commitTransaction]

theorem applyOp_nonneg (s : WalletService) (op : Op) (h : NonNeg s) : NonNeg (applyOp s op) := by
  cases op with
  | dep a x t =>
    show NonNeg (deposit s a x t).2.1
    cases hg : dictGet s.transactions t with
    | some r => rw [deposit_dup a x hg]; exact h
    | none =>
      by_cases hx : x ≤ 0
      · intro p hp
        rw [deposit_wallets_nonpos s a x t hg hx] at hp
        exact h p hp
      · intro p hp
        rw [deposit_wallets s a x t hg hx] at hp
        refine nonneg_dictSet (nonneg_ensure h a) ?_ p hp
        have h0 : (0 : Rat) ≤ (dictGet (ensureAccount s.wallets a) a).getD 0 :=
          dictGet_nonneg (nonneg_ensure h a) a
        have hx' : (0 : Rat) < x := lt_of_not_ge hx
        linarith
  | wd a x t =>
    show NonNeg (withdraw s a x t).2.1
    cases hg : dictGet s.transactions t with
    | some r => rw [withdraw_dup a x hg]; exact h
    | none =>
      by_cases hx : x ≤ 0
      · intro p hp
        rw [withdraw_wallets_nonpos s a x t hg hx] at hp
        exact h p hp
      · by_cases hb : (dictGet (ensureAccount s.wallets a) a).getD 0 < x
        · intro p hp
          rw [withdraw_wallets_insufficient s a x t hg hx hb] at hp
          exact nonneg_ensure h a p hp
        · intro p hp
          rw [withdraw_wallets_main s a x t hg hx hb] at hp
          refine nonneg_dictSet (nonneg_ensure h a) ?_ p hp
          have hbx : x ≤ (dictGet (ensureAccount s.wallets a) a).getD 0 := le_of_not_lt hb
          linarith
  | bal a =>
    show NonNeg (get_balance s a).2.1
    unfold get_balance
    by_cases hw : (dictGet s.wallets a).isSome
    · simpa [hw] using h
    · intro p hp
      simp only [hw, if_neg, Bool.false_eq_true, ite_false] at hp
      exact nonneg_dictSet h le_rfl p hp

/-- C5: from any state with non-negative balances (in particular the empty
initial state), after any sequence of deposit, withdraw and get_balance
operations every stored balance is still non-negative; since this holds
for arbitrary sequences it holds after every prefix, i.e. after every
operation. -/
theorem balances_nonneg (s : WalletService) (h : NonNeg s) (ops : List Op) :
    NonNeg (runOps s ops) := by
  induction ops generalizing s with
  | nil => exact h
  | cons o rest ih => exact ih _ (applyOp_nonneg s o h)

/-- Witness for C5 at a concrete input: the empty initial state is
non-negative and stays so across a deposit, a withdrawal and a read. -/
theorem balances_nonneg_witness :
    NonNeg ⟨[], []⟩
  ∧ NonNeg (runOps ⟨[], []⟩
      [.dep "alice" 100 "t1", .wd "alice" 30 "t2", .bal "bob"]) :=
  ⟨by decide, balances_nonneg ⟨[], []⟩ (by decide)
    [.dep "alice" 100 "t1", .wd "alice" 30 "t2", .bal "bob"]⟩

/- ### Rejection idempotency (C6) -/

/-- A deposit under a different transaction id does not disturb the log
entry of `t`. -/
theorem deposit_get_ne (s : WalletService) (a : String) (y : Rat) {t t3 : String}
    (h : t ≠ t3) :
    dictGet (deposit s a y t3).2.1.transactions t = dictGet s.transactions t := by
  cases hg : dictGet s.transactions t3 with
  | some r => rw [deposit_dup a y hg]
  | none =>
    by_cases hy : y ≤ 0
    · simp only [deposit, hg, if_pos hy, commitTransaction]
      exact dictGet_dictSet_ne _ _ h
    · simp only [deposit, hg, if_neg hy, recordTransactionWal, commitTransaction]
      rw [dictGet_dictSet_ne _ _ h, dictGet_dictSet_ne _ _ h]

/-- C6: a withdrawal of `0 < x` exceeding the current balance returns
`(false, "Insufficient balance", current_balance)`; the transaction is
recorded directly as COMMITTED — the single log write performed never
contains `t` as PENDING; and a retry of the same `transaction_id` after an
intervening deposit that would make the withdrawal valid still returns the
cached rejection triple and changes nothing. -/
theorem insufficient_withdraw_rejection (s : WalletService) (a t t3 : String) (x y : Rat)
    (hg : dictGet s.transactions t = none)
    (hx : 0 < x)
    (hb : (dictGet s.wallets a).getD 0 < x)
    (ht3 : t3 ≠ t)
    (hy : 0 < y)
    (hvalid : x ≤ (dictGet s.wallets a).getD 0 + y) :
    (withdraw s a x t).1 =
      ⟨some false, some "Insufficient balance", some ((dictGet s.wallets a).getD 0)⟩
  ∧ (∃ r, dictGet (withdraw s a x t).2.1.transactions t = some r ∧ r.status = .COMMITTED)
  ∧ (withdraw s a x t).2.2 =
      [DiskEvent.saveTransactions (withdraw s a x t).2.1.transactions]
  ∧ (∀ T, DiskEvent.saveTransactions T ∈ (withdraw s a x t).2.2 →
      ∀ rr, dictGet T t = some rr → rr.status = .COMMITTED)
  ∧ withdraw (deposit (withdraw s a x t).2.1 a y t3).2.1 a x t =
      (⟨some false, some "Insufficient balance", some ((dictGet s.wallets a).getD 0)⟩,
       (deposit (withdraw s a x t).2.1 a y t3).2.1, []) := by
  have hx' : ¬ x ≤ 0 := not_le.mpr hx
  have hb' : (dictGet (ensureAccount s.wallets a) a).getD 0 < x := by
    rw [dictGet_ensure_getD]
    exact hb
  have hres : (withdraw s a x t).1 =
      ⟨some false, some "Insufficient balance", some ((dictGet s.wallets a).getD 0)⟩ := by
    simp only [withdraw, hg, if_neg hx', if_pos hb']
    rw [dictGet_ensure_getD]
  refine ⟨hres, ?_, ?_, ?_, ?_⟩
  · simp only [withdraw, hg, if_neg hx', if_pos hb', commitTransaction]
    exact ⟨_, dictGet_dictSet_self _ _ _, commitRecord_status _ _ _ _ _⟩
  · simp only [withdraw, hg, if_neg hx', if_pos hb', commitTransaction]
  · intro T hT rr hrr
    simp only [withdraw, hg, if_neg hx', if_pos hb', commitTransaction,
      List.mem_singleton, DiskEvent.saveTransactions.injEq] at hT
    subst hT
    rw [dictGet_dictSet_self] at hrr
    cases hrr
    exact commitRecord_status _ _ _ _ _
  · obtain ⟨r, hr, hc⟩ := withdraw_caches s a x t
    have hgd : dictGet (deposit (withdraw s a x t).2.1 a y t3).2.1.transactions t =
        some r := by
      rw [deposit_get_ne _ a y (Ne.symm ht3)]
      exact hr
    rw [withdraw_dup a x hgd, hc, hres]

/-- Witness for C6: fresh state, `withdraw("bob", 50, "t2")` is rejected
with the current balance 0; the hypotheses hold at this input. -/
theorem insufficient_withdraw_rejection_witness :
    dictGet (⟨[], []⟩ : WalletService).transactions "t2" = none
  ∧ (0 : Rat) < 50
  ∧ (dictGet (⟨[], []⟩ : WalletService).wallets "bob").getD 0 < 50
  ∧ ("t3" : String) ≠ "t2"
  ∧ (0 : Rat) < 200
  ∧ (50 : Rat) ≤ (dictGet (⟨[], []⟩ : WalletService).wallets "bob").getD 0 + 200
  ∧ (withdraw ⟨[], []⟩ "bob" 50 "t2").1 =
      ⟨some false, some "Insufficient balance", some 0⟩ := by
  refine ⟨by decide, by decide, by decide, by decide, by decide, by norm_num [dictGet], ?_⟩
  exact (insufficient_withdraw_rejection ⟨[], []⟩ "bob" "t2" "t3" 50 200
    (by decide) (by decide) (by decide) (by decide) (by decide) (by norm_num [dictGet])).1

/- ### WAL ordering (C3) -/

/-- C3: a fresh successful deposit performs exactly three disk writes in
order — the transaction log with the record PENDING, then the wallet
store containing the updated balance, then the transaction log with the
record COMMITTED — so the record reaches COMMITTED only after the wallet
change was persisted; and likewise for a fresh sufficiently-funded
withdrawal. -/
theorem wal_ordering (s : WalletService) (a : String) (x : Rat) (t : String)
    (hg : dictGet s.transactions t = none) (hx : 0 < x) :
    (∃ T1 W T2,
      (deposit s a x t).2.2 =
        [DiskEvent.saveTransactions T1, DiskEvent.saveWallets W, DiskEvent.saveTransactions T2]
      ∧ dictGet T1 t = some (walRecord "DEPOSIT" a x)
      ∧ (walRecord "DEPOSIT" a x).status = TxnStatus.PENDING
      ∧ dictGet W a = some ((dictGet s.wallets a).getD 0 + x)
      ∧ W = (deposit s a x t).2.1.wallets
      ∧ T2 = (deposit s a x t).2.1.transactions
      ∧ ∃ r2, dictGet T2 t = some r2 ∧ r2.status = TxnStatus.COMMITTED)
  ∧ (x ≤ (dictGet s.wallets a).getD 0 →
      ∃ T1 W T2,
        (withdraw s a x t).2.2 =
          [DiskEvent.saveTransactions T1, DiskEvent.saveWallets W,
            DiskEvent.saveTransactions T2]
        ∧ dictGet T1 t = some (walRecord "WITHDRAW" a x)
        ∧ dictGet W a = some ((dictGet s.wallets a).getD 0 - x)
        ∧ W = (withdraw s a x t).2.1.wallets
        ∧ T2 = (withdraw s a x t).2.1.transactions
        ∧ ∃ r2, dictGet T2 t = some r2 ∧ r2.status = TxnStatus.COMMITTED) := by
  have hx' : ¬ x ≤ 0 := not_le.mpr hx
  constructor
  · simp only [deposit, hg, if_neg hx', recordTransactionWal, commitTransaction,
      List.cons_append, List.nil_append]
    refine ⟨_, _, _, rfl, dictGet_dictSet_self _ _ _, rfl, ?_, rfl, rfl,
      _, dictGet_dictSet_self _ _ _, commitRecord_status _ _ _ _ _⟩
    rw [dictGet_dictSet_self, dictGet_ensure_getD]
  · intro hble
    have hb : ¬ (dictGet (ensureAccount s.wallets a) a).getD 0 < x := by
      rw [dictGet_ensure_getD]
      exact not_lt.mpr hble
    simp only [withdraw, hg, if_neg hx', if_neg hb, recordTransactionWal, commitTransaction,
      List.cons_append, List.nil_append]
    refine ⟨_, _, _, rfl, dictGet_dictSet_self _ _ _, ?_, rfl, rfl,
      _, dictGet_dictSet_self _ _ _, commitRecord_status _ _ _ _ _⟩
    rw [dictGet_dictSet_self, dictGet_ensure_getD]

/-- Witness for C3: from balance 100, a fresh deposit of 40 produces the
PENDING-write / wallet-write / COMMITTED-write trace. -/
theorem wal_ordering_witness :
    dictGet (⟨[("alice", 100)], []⟩ : WalletService).transactions "t9" = none
  ∧ (0 : Rat) < 40
  ∧ ∃ T1 W T2,
      (deposit ⟨[("alice", 100)], []⟩ "alice" 40 "t9").2.2 =
        [DiskEvent.saveTransactions T1, DiskEvent.saveWallets W, DiskEvent.saveTransactions T2]
      ∧ dictGet T1 "t9" = some (walRecord "DEPOSIT" "alice" 40)
      ∧ dictGet W "alice" = some 140
      ∧ ∃ r2, dictGet T2 "t9" = some r2 ∧ r2.status = TxnStatus.COMMITTED := by
  refine ⟨by decide, by decide, ?_⟩
  obtain ⟨T1, W, T2, h1, h2, _, h4, _, _, h7⟩ :=
    (wal_ordering ⟨[("alice", 100)], []⟩ "alice" 40 "t9" (by decide) (by decide)).1
  refine ⟨T1, W, T2, h1, h2, ?_, h7⟩
  rw [h4]
  norm_num [dictGet]

/- ### Recovery (C9, C10, C2) -/

theorem rollback_wallets (s : WalletService) (tid : String) :
    (rollbackTransaction s tid).1.wallets = s.wallets := by
  unfold rollbackTransaction
  cases dictGet s.transactions tid <;> rfl

theorem rollback_get_ne (s : WalletService) {t' tid : String} (h : t' ≠ tid) :
    dictGet (rollbackTransaction s tid).1.transactions t' = dictGet s.transactions t' := by
  unfold rollbackTransaction
  cases hg : dictGet s.transactions tid with
  | none => rfl
  | some r => simp [dictGet_dictSet_ne _ _ h]

theorem rollback_get_self {s : WalletService} {tid : String} {r : TxnRecord}
    (hg : dictGet s.transactions tid = some r) :
    dictGet (rollbackTransaction s tid).1.transactions tid =
      some { r with status := TxnStatus.ROLLED_BACK } := by
  simp [rollbackTransaction, hg, dictGet_dictSet_self]

theorem rollback_keys {s : WalletService} {tid : String} {r : TxnRecord}
    (hg : dictGet s.transactions tid = some r) :
    (rollbackTransaction s tid).1.transactions.map Prod.fst =
      s.transactions.map Prod.fst := by
  simp only [rollbackTransaction, hg]
  exact dictSet_keys_of_get _ (by simp [hg])

/-- Full characterisation of the recovery loop over a snapshot of log
items whose keys are unique and are bound in the running state as in the
snapshot: it counts the PENDING items, leaves the wallets and the key
list alone, leaves entries outside the snapshot alone, and turns exactly
the PENDING items to ROLLED_BACK keeping their other fields. -/
theorem recoverLoop_spec (items : List (String × TxnRecord)) :
    ∀ (s : WalletService) (acc : Nat) (evs : List DiskEvent),
    (∀ p ∈ items, dictGet s.transactions p.1 = some p.2) →
    (items.map Prod.fst).Nodup →
    (recoverLoop items s acc evs).1
        = acc + (items.filter (fun p => p.2.status = TxnStatus.PENDING)).length
  ∧ (recoverLoop items s acc evs).2.1.wallets = s.wallets
  ∧ (recoverLoop items s acc evs).2.1.transactions.map Prod.fst
        = s.transactions.map Prod.fst
  ∧ (∀ tid, (∀ p ∈ items, p.1 ≠ tid) →
      dictGet (recoverLoop items s acc evs).2.1.transactions tid
        = dictGet s.transactions tid)
  ∧ (∀ p ∈ items, dictGet (recoverLoop items s acc evs).2.1.transactions p.1 =
      some (if p.2.status = TxnStatus.PENDING
            then { p.2 with status := TxnStatus.ROLLED_BACK } else p.2)) := by
  induction items with
  | nil =>
    intro s acc evs _ _
    exact ⟨by simp [recoverLoop], rfl, rfl, fun tid _ => rfl, by simp⟩
  | cons p rest ih =>
    intro s acc evs hsub hnd
    obtain ⟨tid, r⟩ := p
    simp only [List.map_cons, List.nodup_cons] at hnd
    have hget : dictGet s.transactions tid = some r := hsub (tid, r) (List.mem_cons_self _ _)
    have hrestne : ∀ q ∈ rest, q.1 ≠ tid := by
      intro q hq he
      exact hnd.1 (he ▸ List.mem_map.mpr ⟨q, hq, rfl⟩)
    by_cases hr : r.status = TxnStatus.PENDING
    · have hloop : recoverLoop ((tid, r) :: rest) s acc evs
          = recoverLoop rest (rollbackTransaction s tid).1 (acc + 1)
              (evs ++ (rollbackTransaction s tid).2) := by
        simp [recoverLoop, hr]
      have hsub1 : ∀ q ∈ rest, dictGet (rollbackTransaction s tid).1.transactions q.1
          = some q.2 := by
        intro q hq
        rw [rollback_get_ne s (hrestne q hq)]
        exact hsub q (List.mem_cons_of_mem _ hq)
      obtain ⟨ihc, ihw, ihk, ihf, ihm⟩ :=
        ih (rollbackTransaction s tid).1 (acc + 1) (evs ++ (rollbackTransaction s tid).2)
          hsub1 hnd.2
      refine ⟨?_, ?_, ?_, ?_, ?_⟩
      · rw [hloop, ihc]
        simp [List.filter_cons, hr]
        omega
      · rw [hloop, ihw, rollback_wallets]
      · rw [hloop, ihk, rollback_keys hget]
      · intro tid' htid'
        have h1 : tid ≠ tid' := htid' (tid, r) (List.mem_cons_self _ _)
        rw [hloop, ihf tid' (fun q hq => htid' q (List.mem_cons_of_mem _ hq)),
          rollback_get_ne s (Ne.symm h1)]
      · intro q hq
        rcases List.mem_cons.mp hq with hqe | hqr
        · rw [hqe]
          rw [hloop, ihf tid hrestne, rollback_get_self hget]
          simp [hr]
        · rw [hloop]
          exact ihm q hqr
    · have hloop : recoverLoop ((tid, r) :: rest) s acc evs = recoverLoop rest s acc evs := by
        simp [recoverLoop, hr]
      have hsub1 : ∀ q ∈ rest, dictGet s.transactions q.1 = some q.2 :=
        fun q hq => hsub q (List.mem_cons_of_mem _ hq)
      obtain ⟨ihc, ihw, ihk, ihf, ihm⟩ := ih s acc evs hsub1 hnd.2
      refine ⟨?_, ?_, ?_, ?_, ?_⟩
      · rw [hloop, ihc]
        simp [List.filter_cons, hr]
      · rw [hloop, ihw]
      · rw [hloop, ihk]
      · intro tid' htid'
        rw [hloop]
        exact ihf tid' (fun q hq => htid' q (List.mem_cons_of_mem _ hq))
      · intro q hq
        rcases List.mem_cons.mp hq with hqe | hqr
        · rw [hqe, hloop, ihf tid hrestne, hget]
          simp [hr]
        · rw [hloop]
          exact ihm q hqr

/-- C9: `recover_pending_transactions` returns exactly the number of
PENDING records; wallets are unchanged; each formerly PENDING record is
now the same record with status ROLLED_BACK while every other record is
unchanged; and afterwards no record in the log is PENDING. -/
theorem recover_spec (s : WalletService) (hnd : (s.transactions.map Prod.fst).Nodup) :
    (recover_pending_transactions s).1 =
        (s.transactions.filter (fun p => p.2.status = TxnStatus.PENDING)).length
  ∧ (recover_pending_transactions s).2.1.wallets = s.wallets
  ∧ (∀ p ∈ s.transactions,
      dictGet (recover_pending_transactions s).2.1.transactions p.1 =
        some (if p.2.status = TxnStatus.PENDING
              then { p.2 with status := TxnStatus.ROLLED_BACK } else p.2))
  ∧ ∀ q ∈ (recover_pending_transactions s).2.1.transactions,
      q.2.status ≠ TxnStatus.PENDING := by
  have hsub : ∀ p ∈ s.transactions, dictGet s.transactions p.1 = some p.2 := by
    intro p hp
    exact dictGet_of_mem_nodup hnd (by simpa using hp)
  simp only [recover_pending_transactions]
  obtain ⟨hc, hw, hk, hf, hm⟩ := recoverLoop_spec s.transactions s 0 [] hsub hnd
  refine ⟨by simpa using hc, hw, hm, ?_⟩
  intro q hq
  have hknd : ((recoverLoop s.transactions s 0 []).2.1.transactions.map Prod.fst).Nodup := by
    rw [hk]
    exact hnd
  have hgq : dictGet (recoverLoop s.transactions s 0 []).2.1.transactions q.1 = some q.2 :=
    dictGet_of_mem_nodup hknd (by simpa using hq)
  have hkey : q.1 ∈ s.transactions.map Prod.fst := by
    rw [← hk]
    exact List.mem_map.mpr ⟨q, hq, rfl⟩
  obtain ⟨p, hp, hpe⟩ := List.mem_map.mp hkey
  have hpm := hm p hp
  rw [hpe, hgq] at hpm
  have hq2 : q.2 = if p.2.status = TxnStatus.PENDING
      then { p.2 with status := TxnStatus.ROLLED_BACK } else p.2 := Option.some.inj hpm
  rw [hq2]
  by_cases hps : p.2.status = TxnStatus.PENDING
  · simp [hps]
  · simp [hps]


/-- Witness for C9: on `recoverDemo` (unique keys, one PENDING record)
the recovered count is 1. -/
theorem recover_spec_witness :
    (recoverDemo.transactions.map Prod.fst).Nodup
  ∧ (recover_pending_transactions recoverDemo).1 = 1 := by
  constructor
  · decide
  · rw [(recover_spec recoverDemo (by decide)).1]
    decide

/-- C10: a call with a transaction id whose log record is ROLLED_BACK
replays the stored `success`, `message`, `new_balance` fields and changes
nothing — no state change, no disk write, for deposit and withdraw alike;
moreover a record that was written PENDING by the WAL and then rolled
back by recovery still carries the null result fields, so such a replay
returns the null triple. -/
theorem rolled_back_replay (s : WalletService) (t a : String) (x : Rat) (r : TxnRecord)
    (h : dictGet s.transactions t = some r) (hrb : r.status = TxnStatus.ROLLED_BACK) :
    deposit s a x t = (⟨r.success, r.message, r.new_balance⟩, s, [])
  ∧ withdraw s a x t = (⟨r.success, r.message, r.new_balance⟩, s, [])
  ∧ ∀ (s0 : WalletService) (op acct : String) (amt : Rat),
      (s0.transactions.map Prod.fst).Nodup →
      dictGet s0.transactions t = some (walRecord op acct amt) →
      dictGet (recover_pending_transactions s0).2.1.transactions t =
        some ⟨TxnStatus.ROLLED_BACK, some op, some acct, some amt, none, none, none⟩ := by
  refine ⟨deposit_dup a x h, withdraw_dup a x h, ?_⟩
  intro s0 op acct amt hnd0 hget0
  have hsub : ∀ p ∈ s0.transactions, dictGet s0.transactions p.1 = some p.2 := by
    intro p hp
    exact dictGet_of_mem_nodup hnd0 (by simpa using hp)
  obtain ⟨_, _, _, _, hm⟩ := recoverLoop_spec s0.transactions s0 0 [] hsub hnd0
  have hmem : (t, walRecord op acct amt) ∈ s0.transactions := mem_of_dictGet hget0
  have hall := hm (t, walRecord op acct amt) hmem
  simp only [recover_pending_transactions]
  simpa [walRecord] using hall

/-- Witness for C10: replaying the rolled-back `"t7"` returns the stored
null triple and changes nothing. -/
theorem rolled_back_replay_witness :
    dictGet rbService.transactions "t7" = some rbDemo
  ∧ rbDemo.status = TxnStatus.ROLLED_BACK
  ∧ deposit rbService "alice" 10 "t7" = (⟨none, none, none⟩, rbService, []) := by
  refine ⟨by decide, by decide, ?_⟩
  exact (rolled_back_replay rbService "t7" "alice" 10 rbDemo (by decide) (by decide)).1

/-- C2 fails on the code: after the crash-restart-recovery sequence the
record of `"t5"` is ROLLED_BACK but still present, so the retried
`deposit("alice", 10, "t5")` hits the key-presence duplicate check and
returns the stored null triple without applying the deposit — the balance
stays 0 and the state is unchanged, where the claim expects a successful
`+10` application. -/
theorem crash_retry_not_applied :
    (dictGet c2_recovered.transactions "t5").map TxnRecord.status =
      some TxnStatus.ROLLED_BACK
  ∧ dictGet c2_recovered.wallets "alice" = some 0
  ∧ deposit c2_recovered "alice" 10 "t5" = (⟨none, none, none⟩, c2_recovered, []) := by
  decide

end FTWallet
